import Mathlib

/-! Student dashboard (`src/studentdashboard/src/App.js`)

A shallow embedding of the state logic of the `App` component: the
directory filter, the add-record form, the mock authentication service and
the modal handlers.

Strings are Lean `String`s, i.e. sequences of Unicode scalar values. On
well-formed strings the code-unit operations used by the source (`includes`,
`split('@')`, `trim`, the e-mail regular expression) agree with their
code-point counterparts below, because every character they single out lies in
the Basic Multilingual Plane. The case conversions of the host depend on the
Unicode tables of the engine and are a parameter (`HostCase`).
-/

namespace StudentDashboard

/-! ## String primitives of the host language -/

/-- ECMAScript `WhiteSpace` and `LineTerminator` code points: the characters
removed by `String.prototype.trim` and matched by `\s` in a regular
expression. -/
def isWhiteSpace (c : Char) : Bool :=
  let n := c.toNat
  n == 0x09 || n == 0x0A || n == 0x0B || n == 0x0C || n == 0x0D || n == 0x20 ||
  n == 0xA0 || n == 0x1680 || (0x2000 ≤ n && n ≤ 0x200A) || n == 0x2028 ||
  n == 0x2029 || n == 0x202F || n == 0x205F || n == 0x3000 || n == 0xFEFF

/-- `String.prototype.trim`: strip white space from both ends. -/
def trim (s : String) : String :=
  ⟨((s.data.dropWhile isWhiteSpace).reverse.dropWhile isWhiteSpace).reverse⟩

/-- Truthiness of a string value: only the empty string is falsy. -/
def truthy (s : String) : Bool := !s.data.isEmpty

/-- Lower-case form of an ASCII character: `A`-`Z` move to `a`-`z`. -/
def asciiLower (c : Char) : Char :=
  if 0x41 ≤ c.toNat ∧ c.toNat ≤ 0x5A then Char.ofNat (c.toNat + 0x20) else c

/-- Upper-case form of an ASCII character: `a`-`z` move to `A`-`Z`. -/
def asciiUpper (c : Char) : Char :=
  if 0x61 ≤ c.toNat ∧ c.toNat ≤ 0x7A then Char.ofNat (c.toNat - 0x20) else c

/-- Every character of the string is an ASCII character (below U+0080). -/
def isAscii (s : String) : Bool := s.data.all (fun c => decide (c.toNat < 128))

/-- The case conversions of the host, `String.prototype.toLowerCase` (lines
93-94) and `String.prototype.toUpperCase`. They follow the Unicode tables and
context rules of the engine, which are no part of the repository, so they are a
parameter of the embedding. What is fixed is their effect on strings of ASCII
characters, which they convert letter by letter. -/
structure HostCase where
  toLowerCase : String → String
  toUpperCase : String → String
  toLowerCase_ascii : ∀ s : String, isAscii s = true → toLowerCase s = ⟨s.data.map asciiLower⟩
  toUpperCase_ascii : ∀ s : String, isAscii s = true → toUpperCase s = ⟨s.data.map asciiUpper⟩

/-- Lower-case mapping of a character up to U+00FF by the Unicode tables
(`A`-`Z`, `À`-`Þ` without `×`). -/
def latin1LowerChar (c : Char) : Char :=
  let n := c.toNat
  if (0x41 ≤ n ∧ n ≤ 0x5A) ∨ (0xC0 ≤ n ∧ n ≤ 0xDE ∧ n ≠ 0xD7) then Char.ofNat (n + 0x20)
  else c

/-- Upper-case mapping of a character up to U+00FF by the Unicode tables:
`a`-`z`, `à`-`þ` without `÷`, and the three special cases of the Latin-1
Supplement, `ß ↦ SS`, `µ ↦ Μ` (U+039C) and `ÿ ↦ Ÿ` (U+0178). -/
def latin1UpperChars (c : Char) : List Char :=
  let n := c.toNat
  if (0x61 ≤ n ∧ n ≤ 0x7A) ∨ (0xE0 ≤ n ∧ n ≤ 0xFE ∧ n ≠ 0xF7) then [Char.ofNat (n - 0x20)]
  else if n = 0xDF then ['S', 'S']
  else if n = 0xB5 then [Char.ofNat 0x39C]
  else if n = 0xFF then [Char.ofNat 0x178]
  else [c]

/-- The case conversions of the host on strings whose code points are all at
most U+00FF, where both convert character by character with the tables above.
It serves to evaluate the code on concrete strings of that range; on a string
with a code point above U+00FF it is not the conversion of the host. -/
def latin1 : HostCase where
  toLowerCase s := ⟨s.data.map latin1LowerChar⟩
  toUpperCase s := ⟨s.data.flatMap latin1UpperChars⟩
  toLowerCase_ascii := by
    intro s h
    have hc : ∀ n < 128, latin1LowerChar (Char.ofNat n) = asciiLower (Char.ofNat n) := by
      decide
    show String.mk (s.data.map latin1LowerChar) = String.mk (s.data.map asciiLower)
    congr 1
    apply List.map_congr_left
    intro c hm
    have hlt : c.toNat < 128 := by
      have := List.all_eq_true.mp h c hm
      simpa using this
    have := hc c.toNat hlt
    rwa [Char.ofNat_toNat] at this
  toUpperCase_ascii := by
    intro s h
    have hc : ∀ n < 128, latin1UpperChars (Char.ofNat n) = [asciiUpper (Char.ofNat n)] := by
      decide
    have hl : ∀ l : List Char, (∀ c ∈ l, c.toNat < 128) →
        l.flatMap latin1UpperChars = l.map asciiUpper := by
      intro l
      induction l with
      | nil => intro _; rfl
      | cons c cs ih =>
        intro hlt
        have e := hc c.toNat (hlt c (List.mem_cons_self _ _))
        rw [Char.ofNat_toNat] at e
        rw [List.flatMap_cons, e, ih (fun d hd => hlt d (List.mem_cons_of_mem _ hd))]
        rfl
    show String.mk (s.data.flatMap latin1UpperChars) = String.mk (s.data.map asciiUpper)
    congr 1
    apply hl
    intro c hm
    have := List.all_eq_true.mp h c hm
    simpa using this

/-- Search `t` in `s` from the left, position by position. -/
def includesFrom : List Char → List Char → Bool
  | [], t => t.isPrefixOf []
  | c :: cs, t => t.isPrefixOf (c :: cs) || includesFrom cs t

/-- `String.prototype.includes`: `t` occurs in `s` as a contiguous substring. -/
def includes (s t : String) : Bool := includesFrom s.data t.data

/-! ## Data model -/

/-- A student record (`mockStudentData`, lines 5-12). -/
structure Student where
  id : Nat
  name : String
  email : String
  course : String
  grade : String
  deriving DecidableEq, Repr

/-- Seed data returned by `fetchStudents`. -/
def mockStudentData : List Student :=
  [ { id := 1, name := "Atanu Ghosh", email := "atanughosh@gmail.com", course := "Computer Science", grade := "A+" },
    { id := 2, name := "Anik kundu", email := "anikkundu@gmail.com", course := "Information Technology", grade := "B+" },
    { id := 3, name := "Abhirup Bhoumik", email := "abhirup@gmail.com", course := "Civil", grade := "A" },
    { id := 4, name := "Raju Mondol", email := "rajumondol@gmail.com", course := "Computer Science", grade := "B" },
    { id := 5, name := "Jit Das", email := "jitdas@gmail.com", course := "Electrical", grade := "A" },
    { id := 6, name := "Ayan Roy", email := "ayanroy@gmail.com", course := "Civil", grade := "A+" } ]

/-! ## Filtering (lines 91-96) -/

/-- The predicate passed to `students.filter`. -/
def matchesFilter (host : HostCase) (selectedCourse searchQuery : String) (student : Student) :
    Bool :=
  let matchesCourse := selectedCourse == "All Courses" || student.course == selectedCourse
  let matchesSearch :=
    includes (host.toLowerCase student.name) (host.toLowerCase searchQuery) ||
    includes (host.toLowerCase student.email) (host.toLowerCase searchQuery)
  matchesCourse && matchesSearch

/-- The derived list `filteredStudents`. -/
def filteredStudents (host : HostCase) (students : List Student)
    (selectedCourse searchQuery : String) : List Student :=
  students.filter (matchesFilter host selectedCourse searchQuery)

/-- The match condition in the words of the specification: the course filter is
`All Courses` or equals the record's course, and the query is empty or occurs,
lower-cased by the host, in the lower-cased name or in the lower-cased e-mail
address. -/
def SpecMatches (host : HostCase) (course query : String) (r : Student) : Prop :=
  (course = "All Courses" ∨ r.course = course) ∧
  (query = "" ∨ (host.toLowerCase query).data <:+: (host.toLowerCase r.name).data ∨
    (host.toLowerCase query).data <:+: (host.toLowerCase r.email).data)

/-! ## Add-record form (lines 68-74, 98-128) -/

/-- The draft `newStudent` of the add form. -/
structure Draft where
  name : String
  email : String
  course : String
  grade : String
  deriving DecidableEq, Repr

/-- Initial and reset value of `newStudent`. -/
def defaultDraft : Draft :=
  { name := "", email := "", course := "Computer Science", grade := "" }

/-- The object `errors` / `formErrors`: a message for each key that is present. -/
structure FormErrors where
  name : Option String := none
  email : Option String := none
  grade : Option String := none
  deriving DecidableEq, Repr

/-- `Object.keys(errors)`. -/
def FormErrors.keys (e : FormErrors) : List String :=
  (if e.name.isSome then ["name"] else []) ++
  (if e.email.isSome then ["email"] else []) ++
  (if e.grade.isSome then ["grade"] else [])

/-- The character class `[^\s@]`. -/
def isAddrChar (c : Char) : Bool := !(isWhiteSpace c || c == '@')

/-- Matcher for `[p]+` followed by the continuation `k` (longest run first). -/
def matchPlus (p : Char → Bool) (k : List Char → Bool) : List Char → Bool
  | [] => false
  | c :: cs => p c && (matchPlus p k cs || k cs)

/-- Matcher for the literal character `ch` followed by the continuation `k`. -/
def matchChar (ch : Char) (k : List Char → Bool) : List Char → Bool
  | [] => false
  | c :: cs => c == ch && k cs

/-- Matcher for `$`: end of input. -/
def matchEnd : List Char → Bool
  | [] => true
  | _ :: _ => false

/-- The test `/^[^\s@]+@[^\s@]+\.[^\s@]+$/.test(s)` of line 104. -/
def emailRegexTest (s : String) : Bool :=
  matchPlus isAddrChar
    (matchChar '@' (matchPlus isAddrChar (matchChar '.' (matchPlus isAddrChar matchEnd))))
    s.data

/-- The `local@domain.tld` shape in the words of the specification: a
non-empty local part, `@`, a non-empty domain, `.`, a non-empty last label, none
of them containing white space or `@`. -/
def EmailShape (s : String) : Prop :=
  ∃ loc dom tld : List Char,
    s.data = loc ++ '@' :: (dom ++ '.' :: tld) ∧ loc ≠ [] ∧ dom ≠ [] ∧ tld ≠ [] ∧
    ∀ c ∈ loc ++ dom ++ tld, isWhiteSpace c = false ∧ c ≠ '@'

/-- Form validation of `handleAddStudent` (lines 100-107): the object `errors`
built from the draft. -/
def validate (newStudent : Draft) : FormErrors :=
  let errors : FormErrors := {}
  let errors :=
    if !truthy (trim newStudent.name) then { errors with name := some "Name is required" }
    else errors
  let errors :=
    if !truthy (trim newStudent.email) then { errors with email := some "Email is required" }
    else if !emailRegexTest newStudent.email then
      { errors with email := some "Invalid email format" }
    else errors
  let errors :=
    if !truthy (trim newStudent.grade) then { errors with grade := some "Grade is required" }
    else errors
  errors

/-! ## Mock authentication service (lines 25-53) -/

/-- The value stored in `FirebaseAuthMock.currentUser`. -/
structure User where
  email : String
  uid : String
  displayName : String
  deriving DecidableEq, Repr

/-- `String.prototype.split` with a one-character separator. -/
def jsSplit (sep : Char) : List Char → List (List Char)
  | [] => [[]]
  | c :: cs =>
    if c == sep then [] :: jsSplit sep cs
    else
      match jsSplit sep cs with
      | [] => [[c]]
      | h :: t => (c :: h) :: t

/-- `FirebaseAuthMock.login`: the settled promise (`ok` when resolved, `error`
with the message when rejected) and the new value of `currentUser`. -/
def FirebaseAuthMock.login (currentUser : Option User) (email password : String) :
    Except String User × Option User :=
  if truthy email && truthy password then
    let user : User :=
      { email := email, uid := "123456", displayName := ⟨(jsSplit '@' email.data).headD []⟩ }
    (.ok user, some user)
  else
    (.error "Invalid credentials", currentUser)

/-- `FirebaseAuthMock.logout`: always resolves and clears `currentUser`. -/
def FirebaseAuthMock.logout ( _currentUser : Option User) : Option User := none

/-! ## Component state and handlers (lines 56-174) -/

/-- The state hooks of `App`, the field `currentUser` of the mock service and
the messages shown by `alert`. -/
structure AppState where
  students : List Student
  loading : Bool
  selectedCourse : String
  searchQuery : String
  isAuthenticated : Bool
  showLoginModal : Bool
  showAddModal : Bool
  showDetailsModal : Bool
  selectedStudent : Option Student
  loginEmail : String
  loginPassword : String
  newStudent : Draft
  formErrors : FormErrors
  currentUser : Option User
  alerts : List String
  deriving DecidableEq, Repr

/-- State on first render (lines 57-74). -/
def initialState : AppState :=
  { students := [], loading := true, selectedCourse := "All Courses", searchQuery := "",
    isAuthenticated := false, showLoginModal := false, showAddModal := false,
    showDetailsModal := false, selectedStudent := none, loginEmail := "", loginPassword := "",
    newStudent := defaultDraft, formErrors := {}, currentUser := none, alerts := [] }

/-- Completion of `loadStudents` (lines 76-89): `fetchStudents` always resolves
with the seed data. -/
def loadStudents (s : AppState) : AppState :=
  { s with students := mockStudentData, loading := false }

/-- `handleAddStudent` (lines 98-128). -/
def handleAddStudent (s : AppState) : AppState :=
  let errors := validate s.newStudent
  if errors.keys.length > 0 then
    { s with formErrors := errors }
  else
    let newStudentWithId : Student :=
      { id := s.students.length + 1, name := s.newStudent.name, email := s.newStudent.email,
        course := s.newStudent.course, grade := s.newStudent.grade }
    { s with
      students := s.students ++ [newStudentWithId]
      showAddModal := false
      newStudent := defaultDraft
      formErrors := {} }

/-- `handleLogin` (lines 130-150), run to completion: the conditions of lines
139 and 144 read the values of the render in which the handler was called. -/
def handleLogin (s : AppState) : AppState :=
  match FirebaseAuthMock.login s.currentUser s.loginEmail s.loginPassword with
  | (.ok _, currentUser) =>
    let s1 : AppState :=
      { s with
        currentUser := currentUser
        isAuthenticated := true
        showLoginModal := false
        loginEmail := ""
        loginPassword := "" }
    let s2 : AppState :=
      if s.selectedStudent.isSome && !s.showAddModal then { s1 with showDetailsModal := true }
      else s1
    if s.showAddModal then { s2 with showAddModal := true } else s2
  | (.error message, currentUser) =>
    { s with
      currentUser := currentUser
      alerts := s.alerts ++
        ["Login failed: " ++ (if truthy message then message else "Unknown error")] }

/-- `handleLogout` (lines 152-155). -/
def handleLogout (s : AppState) : AppState :=
  { s with currentUser := FirebaseAuthMock.logout s.currentUser, isAuthenticated := false }

/-- `openStudentDetails` (lines 157-165). -/
def openStudentDetails (student : Student) (s : AppState) : AppState :=
  if s.isAuthenticated then
    { s with selectedStudent := some student, showDetailsModal := true }
  else
    { s with selectedStudent := some student, showLoginModal := true }

/-- `initiateAddStudent` (lines 167-174). -/
def initiateAddStudent (s : AppState) : AppState :=
  if s.isAuthenticated then
    { s with showAddModal := true }
  else
    { s with showAddModal := true, showLoginModal := true }

/-- The events that change the state: the completion of the start-up load and
the `onClick` / `onChange` handlers of the rendered controls. -/
inductive Action where
  | loadStudents
  | setSearchQuery (value : String)
  | setSelectedCourse (value : String)
  | initiateAddStudent
  | openStudentDetails (student : Student)
  | headerLogin
  | handleLogout
  | setLoginEmail (value : String)
  | setLoginPassword (value : String)
  | cancelLogin
  | handleLogin
  | setNewStudentName (value : String)
  | setNewStudentEmail (value : String)
  | setNewStudentCourse (value : String)
  | setNewStudentGrade (value : String)
  | cancelAdd
  | handleAddStudent
  | closeDetails
  deriving DecidableEq, Repr

/-- Effect of one event on the state. -/
def step (s : AppState) : Action → AppState
  | .loadStudents => loadStudents s
  | .setSearchQuery v => { s with searchQuery := v }
  | .setSelectedCourse v => { s with selectedCourse := v }
  | .initiateAddStudent => initiateAddStudent s
  | .openStudentDetails student => openStudentDetails student s
  | .headerLogin => { s with showLoginModal := true }
  | .handleLogout => handleLogout s
  | .setLoginEmail v => { s with loginEmail := v }
  | .setLoginPassword v => { s with loginPassword := v }
  | .cancelLogin => { s with showLoginModal := false }
  | .handleLogin => handleLogin s
  | .setNewStudentName v => { s with newStudent := { s.newStudent with name := v } }
  | .setNewStudentEmail v => { s with newStudent := { s.newStudent with email := v } }
  | .setNewStudentCourse v => { s with newStudent := { s.newStudent with course := v } }
  | .setNewStudentGrade v => { s with newStudent := { s.newStudent with grade := v } }
  | .cancelAdd => { s with showAddModal := false }
  | .handleAddStudent => handleAddStudent s
  | .closeDetails => { s with showDetailsModal := false }

/-- Run a sequence of events from a state. -/
def run (s : AppState) (actions : List Action) : AppState :=
  actions.foldl step s

/-- The render condition of the details modal (line 457):
`showDetailsModal && selectedStudent`. -/
def detailsVisible (s : AppState) : Bool :=
  s.showDetailsModal && s.selectedStudent.isSome

/-- The control that fires the event is part of the rendered tree (lines
176-514): the load completes once, while `loading` holds; `Login` and `Logout`
alternate in the header (line 185); a `View Details` button exists for each
listed record once the load is over (lines 247-301); the controls of a modal
exist while the modal is rendered (lines 310, 365, 457). -/
def enabled (host : HostCase) (s : AppState) : Action → Bool
  | .loadStudents => s.loading
  | .setSearchQuery _ => true
  | .setSelectedCourse _ => true
  | .initiateAddStudent => true
  | .openStudentDetails student =>
    !s.loading &&
      decide (student ∈ filteredStudents host s.students s.selectedCourse s.searchQuery)
  | .headerLogin => !s.isAuthenticated
  | .handleLogout => s.isAuthenticated
  | .setLoginEmail _ => s.showLoginModal
  | .setLoginPassword _ => s.showLoginModal
  | .cancelLogin => s.showLoginModal
  | .handleLogin => s.showLoginModal
  | .setNewStudentName _ => s.showAddModal
  | .setNewStudentEmail _ => s.showAddModal
  | .setNewStudentCourse _ => s.showAddModal
  | .setNewStudentGrade _ => s.showAddModal
  | .cancelAdd => s.showAddModal
  | .handleAddStudent => s.showAddModal
  | .closeDetails => detailsVisible s

/-- Run a sequence of events, each of which must be fired by a rendered
control; `none` when one of them is not. -/
def runEnabled (host : HostCase) (s : AppState) : List Action → Option AppState
  | [] => some s
  | a :: as => if enabled host s a then runEnabled host (step s a) as else none

/-- The details gate on one state: the details modal is open only if the user
is authenticated. -/
def DetailsGated (s : AppState) : Prop :=
  s.showDetailsModal = true → s.isAuthenticated = true

/-- The ids of the directory are `1, 2, ..., length`, in this order. -/
def IdsInOrder (s : AppState) : Prop :=
  s.students.map (·.id) = List.range' 1 s.students.length

instance (host : HostCase) (course query : String) (r : Student) :
    Decidable (SpecMatches host course query r) := by
  unfold SpecMatches
  infer_instance

/-! ## Lemmas on the string primitives -/

theorem string_eq_empty_iff (s : String) : s = "" ↔ s.data = [] := by
  constructor
  · intro h
    rw [h]
  · intro h
    exact String.ext h

theorem truthy_iff (s : String) : truthy s = true ↔ s ≠ "" := by
  rw [Ne, string_eq_empty_iff]
  cases h : s.data <;> simp [truthy, h]

theorem toLowerCase_empty (host : HostCase) : host.toLowerCase "" = "" :=
  host.toLowerCase_ascii "" rfl

theorem includesFrom_iff (s t : List Char) : includesFrom s t = true ↔ t <:+: s := by
  induction s with
  | nil => simp [includesFrom]
  | cons c cs ih => simp [includesFrom, ih, List.infix_cons_iff]

theorem includes_iff (s t : String) : includes s t = true ↔ t.data <:+: s.data :=
  includesFrom_iff s.data t.data

theorem includes_empty (s : String) : includes s "" = true := by
  rw [includes_iff]
  exact List.nil_infix

theorem isAscii_iff (s : String) : isAscii s = true ↔ ∀ c ∈ s.data, c.toNat < 128 := by
  simp [isAscii, List.all_eq_true]

theorem ascii_char_facts :
    ∀ n < 128,
      (asciiLower (Char.ofNat n)).toNat < 128 ∧ (asciiUpper (Char.ofNat n)).toNat < 128 ∧
      asciiLower (asciiUpper (Char.ofNat n)) = asciiLower (Char.ofNat n) ∧
      asciiLower (asciiLower (Char.ofNat n)) = asciiLower (Char.ofNat n) := by
  decide

theorem ascii_char (c : Char) (h : c.toNat < 128) :
    (asciiLower c).toNat < 128 ∧ (asciiUpper c).toNat < 128 ∧
    asciiLower (asciiUpper c) = asciiLower c ∧ asciiLower (asciiLower c) = asciiLower c := by
  have := ascii_char_facts c.toNat h
  rwa [Char.ofNat_toNat] at this

theorem isAscii_map_lower (s : String) (h : isAscii s = true) :
    isAscii ⟨s.data.map asciiLower⟩ = true := by
  rw [isAscii_iff] at h ⊢
  intro c hc
  obtain ⟨d, hd, rfl⟩ := List.mem_map.mp hc
  exact (ascii_char d (h d hd)).1

theorem isAscii_map_upper (s : String) (h : isAscii s = true) :
    isAscii ⟨s.data.map asciiUpper⟩ = true := by
  rw [isAscii_iff] at h ⊢
  intro c hc
  obtain ⟨d, hd, rfl⟩ := List.mem_map.mp hc
  exact (ascii_char d (h d hd)).2.1

/-- On a query of ASCII characters the upper-cased and the lower-cased query
have the same lower-case form, whatever the tables of the host do elsewhere. -/
theorem lower_upper_of_ascii (host : HostCase) (q : String) (h : isAscii q = true) :
    host.toLowerCase (host.toUpperCase q) = host.toLowerCase (host.toLowerCase q) := by
  rw [host.toUpperCase_ascii q h, host.toLowerCase_ascii q h,
    host.toLowerCase_ascii _ (isAscii_map_upper q h),
    host.toLowerCase_ascii _ (isAscii_map_lower q h)]
  congr 1
  simp only [List.map_map]
  apply List.map_congr_left
  intro c hc
  have hc2 := ascii_char c ((isAscii_iff q).mp h c hc)
  simp only [Function.comp_apply]
  rw [hc2.2.2.1, hc2.2.2.2]

theorem matchesFilter_iff (host : HostCase) (c q : String) (r : Student) :
    matchesFilter host c q r = true ↔ SpecMatches host c q r := by
  simp only [matchesFilter, SpecMatches, Bool.and_eq_true, Bool.or_eq_true, beq_iff_eq,
    includes_iff]
  constructor
  · rintro ⟨hc, hs⟩
    exact ⟨hc, Or.inr hs⟩
  · rintro ⟨hc, hq | hs⟩
    · subst hq
      rw [toLowerCase_empty]
      exact ⟨hc, Or.inl List.nil_infix⟩
    · exact ⟨hc, hs⟩

theorem matchesFilter_all_empty (host : HostCase) (r : Student) :
    matchesFilter host "All Courses" "" r = true := by
  rw [matchesFilter_iff]
  exact ⟨Or.inl rfl, Or.inl rfl⟩

/-! ## Lemmas on the form validation -/

theorem dropWhile_all_iff (p : Char → Bool) (l : List Char) :
    (∀ x ∈ l.dropWhile p, p x = true) ↔ ∀ x ∈ l, p x = true := by
  constructor
  · intro h
    induction l with
    | nil => simp
    | cons a t ih =>
      by_cases ha : p a = true
      · rw [List.dropWhile_cons_of_pos ha] at h
        intro x hx
        rcases List.mem_cons.mp hx with rfl | hx
        · exact ha
        · exact ih h x hx
      · rw [List.dropWhile_cons_of_neg ha] at h
        exact absurd (h a (List.mem_cons_self _ _)) ha
  · intro h x hx
    exact h x ((List.dropWhile_sublist p).subset hx)

theorem trim_eq_empty_iff (s : String) :
    trim s = "" ↔ ∀ c ∈ s.data, isWhiteSpace c = true := by
  rw [string_eq_empty_iff]
  simp only [trim, List.reverse_eq_nil_iff, List.dropWhile_eq_nil_iff, List.mem_reverse]
  exact dropWhile_all_iff isWhiteSpace s.data

theorem matchPlus_iff (p : Char → Bool) (k : List Char → Bool) (s : List Char) :
    matchPlus p k s = true ↔
      ∃ a b, s = a ++ b ∧ a ≠ [] ∧ (∀ c ∈ a, p c = true) ∧ k b = true := by
  induction s with
  | nil =>
    simp only [matchPlus, Bool.false_eq_true, false_iff]
    rintro ⟨a, b, h, ha, -⟩
    have := List.append_eq_nil.mp h.symm
    exact ha this.1
  | cons c cs ih =>
    simp only [matchPlus, Bool.and_eq_true, Bool.or_eq_true, ih]
    constructor
    · rintro ⟨hc, ⟨a, b, rfl, -, ha, hk⟩ | hk⟩
      · refine ⟨c :: a, b, rfl, by simp, ?_, hk⟩
        intro x hx
        rcases List.mem_cons.mp hx with rfl | hx
        · exact hc
        · exact ha x hx
      · exact ⟨[c], cs, rfl, by simp, by simpa using hc, hk⟩
    · rintro ⟨a, b, h, ha, hp, hk⟩
      cases a with
      | nil => exact absurd rfl ha
      | cons x a =>
        simp only [List.cons_append, List.cons.injEq] at h
        obtain ⟨rfl, rfl⟩ := h
        refine ⟨hp c (List.mem_cons_self _ _), ?_⟩
        cases a with
        | nil => exact Or.inr hk
        | cons y a =>
          exact Or.inl ⟨y :: a, b, rfl, by simp,
            fun z hz => hp z (List.mem_cons_of_mem _ hz), hk⟩

theorem matchChar_iff (ch : Char) (k : List Char → Bool) (s : List Char) :
    matchChar ch k s = true ↔ ∃ b, s = ch :: b ∧ k b = true := by
  cases s with
  | nil => simp [matchChar]
  | cons c cs =>
    simp only [matchChar, Bool.and_eq_true, beq_iff_eq, List.cons.injEq]
    constructor
    · rintro ⟨rfl, hk⟩
      exact ⟨cs, ⟨rfl, rfl⟩, hk⟩
    · rintro ⟨b, ⟨rfl, rfl⟩, hk⟩
      exact ⟨rfl, hk⟩

theorem matchEnd_iff (s : List Char) : matchEnd s = true ↔ s = [] := by
  cases s <;> simp [matchEnd]

theorem isAddrChar_iff (c : Char) :
    isAddrChar c = true ↔ isWhiteSpace c = false ∧ c ≠ '@' := by
  simp [isAddrChar]

/-- The regular expression of line 104 accepts exactly the strings of the
`local@domain.tld` shape. -/
theorem emailRegexTest_iff (s : String) : emailRegexTest s = true ↔ EmailShape s := by
  unfold emailRegexTest EmailShape
  simp only [matchPlus_iff, matchChar_iff, matchEnd_iff]
  constructor
  · rintro ⟨loc, _, h, hl, pl, _, rfl, dom, _, rfl, hd, pd, _, rfl, tld, _, rfl, ht, pt, rfl⟩
    refine ⟨loc, dom, tld, by simpa using h, hl, hd, ht, ?_⟩
    intro c hc
    rw [← isAddrChar_iff]
    simp only [List.mem_append] at hc
    rcases hc with (hc | hc) | hc
    · exact pl c hc
    · exact pd c hc
    · exact pt c hc
  · rintro ⟨loc, dom, tld, h, hl, hd, ht, hp⟩
    have hp2 : ∀ c ∈ loc ++ dom ++ tld, isAddrChar c = true :=
      fun c hc => (isAddrChar_iff c).mpr (hp c hc)
    simp only [List.mem_append] at hp2
    exact ⟨loc, _, h, hl, fun c hc => hp2 c (Or.inl (Or.inl hc)), _, rfl, dom, _, rfl, hd,
      fun c hc => hp2 c (Or.inl (Or.inr hc)), _, rfl, tld, [], by simp, ht,
      fun c hc => hp2 c (Or.inr hc), rfl⟩

theorem not_emailShape_of_trim_empty (s : String) (h : trim s = "") : ¬ EmailShape s := by
  rintro ⟨loc, dom, tld, hs, hl, -, -, hp⟩
  cases loc with
  | nil => exact hl rfl
  | cons c loc =>
    have h1 := (trim_eq_empty_iff s).mp h c (by rw [hs]; simp)
    have h2 := (hp c (by simp)).1
    rw [h1] at h2
    exact Bool.noConfusion h2

theorem truthy_eq_false_iff (s : String) : truthy s = false ↔ s = "" := by
  rw [string_eq_empty_iff]
  cases h : s.data <;> simp [truthy, h]

/-- The three keys of the object `errors`, one at a time. -/
theorem validate_eq (d : Draft) :
    validate d =
      { name := if trim d.name = "" then some "Name is required" else none
        email :=
          if trim d.email = "" then some "Email is required"
          else if emailRegexTest d.email = false then some "Invalid email format"
          else none
        grade := if trim d.grade = "" then some "Grade is required" else none } := by
  unfold validate
  by_cases h1 : trim d.name = "" <;> by_cases h2 : trim d.email = "" <;>
    by_cases h3 : emailRegexTest d.email = false <;> by_cases h4 : trim d.grade = "" <;>
    simp [truthy_eq_false_iff, h1, h2, h3, h4]

theorem keys_length_pos_iff (e : FormErrors) :
    e.keys.length > 0 ↔ (e.name.isSome = true ∨ e.email.isSome = true ∨ e.grade.isSome = true) := by
  unfold FormErrors.keys
  cases e.name <;> cases e.email <;> cases e.grade <;> simp

/-! ## Filtering -/

/-- C1: for every host case conversion, directory, course filter and query,
`filteredStudents` keeps exactly the records that satisfy the match condition of
the specification (course filter is `All Courses` or equal to the record's
course, and the query is empty or its lower-case form occurs in the lower-case
form of the name or of the e-mail), in the order of the directory: it is the
directory filtered by that condition, a record is listed iff it is in the
directory and matches, and the result is a subsequence of the directory. On
ASCII query, name and e-mail the lower-case forms are the letter-by-letter ones,
so there the match ignores the case of `A`-`Z`. -/
theorem filteredStudents_spec (host : HostCase) (D : List Student) (c q : String) :
    filteredStudents host D c q = D.filter (fun r => decide (SpecMatches host c q r)) ∧
    (∀ r, r ∈ filteredStudents host D c q ↔ r ∈ D ∧ SpecMatches host c q r) ∧
    List.Sublist (filteredStudents host D c q) D ∧
    (∀ r, isAscii q = true → isAscii r.name = true → isAscii r.email = true →
      (r ∈ filteredStudents host D c q ↔
        r ∈ D ∧ (c = "All Courses" ∨ r.course = c) ∧
          (q = "" ∨ q.data.map asciiLower <:+: r.name.data.map asciiLower ∨
            q.data.map asciiLower <:+: r.email.data.map asciiLower))) := by
  have h : matchesFilter host c q = fun r => decide (SpecMatches host c q r) := by
    funext r
    rw [Bool.eq_iff_iff, matchesFilter_iff, decide_eq_true_iff]
  have hmem : ∀ r, r ∈ filteredStudents host D c q ↔ r ∈ D ∧ SpecMatches host c q r := by
    intro r
    simp [filteredStudents, matchesFilter_iff]
  refine ⟨by rw [filteredStudents, h], hmem, List.filter_sublist D, ?_⟩
  intro r hq hn he
  rw [hmem r, SpecMatches, host.toLowerCase_ascii q hq, host.toLowerCase_ascii r.name hn,
    host.toLowerCase_ascii r.email he]

/-- C9 (as stated) fails: for the query `ß`, whose upper-case form is `SS`, a
record named `Tess Roy` is listed for the upper-cased query and not for the
lower-cased one (all strings involved have code points up to U+00FF). -/
theorem filteredStudents_upper_lower_counterexample :
    filteredStudents latin1
        [{ id := 1, name := "Tess Roy", email := "tess@gmail.com", course := "Civil", grade := "A" }]
        "All Courses" (latin1.toUpperCase "ß") ≠
      filteredStudents latin1
        [{ id := 1, name := "Tess Roy", email := "tess@gmail.com", course := "Civil", grade := "A" }]
        "All Courses" (latin1.toLowerCase "ß") := by
  decide

/-- C9 (amended): for every host case conversion, directory, course filter and
query whose upper-cased and lower-cased forms have the same lower-case form, the
filtered list for the upper-cased query equals the one for the lower-cased
query; and every query of ASCII characters is such a query. -/
theorem filteredStudents_upper_lower (host : HostCase) (D : List Student) (c q : String) :
    (host.toLowerCase (host.toUpperCase q) = host.toLowerCase (host.toLowerCase q) →
      filteredStudents host D c (host.toUpperCase q) =
        filteredStudents host D c (host.toLowerCase q)) ∧
    (isAscii q = true →
      host.toLowerCase (host.toUpperCase q) = host.toLowerCase (host.toLowerCase q) ∧
      filteredStudents host D c (host.toUpperCase q) =
        filteredStudents host D c (host.toLowerCase q)) := by
  have key : host.toLowerCase (host.toUpperCase q) = host.toLowerCase (host.toLowerCase q) →
      filteredStudents host D c (host.toUpperCase q) =
        filteredStudents host D c (host.toLowerCase q) := by
    intro h
    unfold filteredStudents
    congr 1
    funext r
    simp only [matchesFilter, h]
  exact ⟨key, fun hq => ⟨lower_upper_of_ascii host q hq, key (lower_upper_of_ascii host q hq)⟩⟩

theorem filteredStudents_upper_lower_witness :
    filteredStudents latin1
        [{ id := 1, name := "Alice Roy", email := "aroy@gmail.com", course := "Civil", grade := "A" },
         { id := 2, name := "Jit Das", email := "jitdas@gmail.com", course := "Electrical", grade := "A" }]
        "All Courses" "ALICE" =
      filteredStudents latin1
        [{ id := 1, name := "Alice Roy", email := "aroy@gmail.com", course := "Civil", grade := "A" },
         { id := 2, name := "Jit Das", email := "jitdas@gmail.com", course := "Electrical", grade := "A" }]
        "All Courses" "alice" :=
  ((filteredStudents_upper_lower latin1
    [{ id := 1, name := "Alice Roy", email := "aroy@gmail.com", course := "Civil", grade := "A" },
     { id := 2, name := "Jit Das", email := "jitdas@gmail.com", course := "Electrical", grade := "A" }]
    "All Courses" "alice").2 (by decide)).2

/-- C10: for every host case conversion, with the course filter `All Courses`
and the empty query the filtered list is the directory itself. -/
theorem filteredStudents_identity (host : HostCase) (D : List Student) :
    filteredStudents host D "All Courses" "" = D := by
  unfold filteredStudents
  rw [List.filter_eq_self]
  intro r _
  exact matchesFilter_all_empty host r

/-! ## Add-record form -/

/-- C2 (as stated) fails on the `grade` rule: a draft whose grade is one blank
is not the empty string, yet validation reports `Grade is required` for it. -/
theorem validate_grade_counterexample :
    (validate { name := "Ann Lee", email := "ann@mail.org", course := "Civil", grade := " " }).grade
        = some "Grade is required" ∧
      ({ name := "Ann Lee", email := "ann@mail.org", course := "Civil", grade := " " } : Draft).grade
        ≠ "" := by
  decide

/-- C2 (amended): for every draft, validation reports an error for `name` iff
the name is empty after trimming, for `email` iff the e-mail is empty or is not
of the `local@domain.tld` shape, for `grade` iff the grade is empty after
trimming; the draft is rejected iff some field has an error; and the draft with
an empty name, the e-mail `bad` and the grade `A` gets errors for `name` and
`email` only. -/
theorem validate_spec (d : Draft) :
    ((validate d).name.isSome = true ↔ trim d.name = "") ∧
    ((validate d).email.isSome = true ↔ (d.email = "" ∨ ¬ EmailShape d.email)) ∧
    ((validate d).grade.isSome = true ↔ trim d.grade = "") ∧
    ((validate d).keys.length > 0 ↔
      ((validate d).name.isSome = true ∨ (validate d).email.isSome = true ∨
        (validate d).grade.isSome = true)) ∧
    (validate { d with name := "", email := "bad", grade := "A" }).keys = ["name", "email"] := by
  refine ⟨?_, ?_, ?_, keys_length_pos_iff _, rfl⟩
  · rw [validate_eq]
    by_cases h : trim d.name = "" <;> simp [h]
  · rw [validate_eq, ← emailRegexTest_iff]
    by_cases h1 : trim d.email = ""
    · have h2 := not_emailShape_of_trim_empty d.email h1
      rw [← emailRegexTest_iff] at h2
      simp [h1, h2]
    · have h3 : d.email ≠ "" := by
        rintro h
        rw [h] at h1
        exact h1 rfl
      by_cases h2 : emailRegexTest d.email = true <;> simp [h1, h2, h3]
  · rw [validate_eq]
    by_cases h : trim d.grade = "" <;> simp [h]

/-- C3: for every state whose draft passes validation, `handleAddStudent`
appends the draft with id `length + 1` to the directory (so the length grows by
one and the old records stay in front, unchanged), closes the add modal, resets
the draft to its default and empties the field errors. -/
theorem handleAddStudent_valid (s : AppState) (h : (validate s.newStudent).keys.length = 0) :
    (handleAddStudent s).students =
      s.students ++ [{ id := s.students.length + 1, name := s.newStudent.name,
                       email := s.newStudent.email, course := s.newStudent.course,
                       grade := s.newStudent.grade }] ∧
    (handleAddStudent s).students.length = s.students.length + 1 ∧
    (handleAddStudent s).students.take s.students.length = s.students ∧
    (handleAddStudent s).showAddModal = false ∧
    (handleAddStudent s).newStudent =
      { name := "", email := "", course := "Computer Science", grade := "" } ∧
    (handleAddStudent s).formErrors = {} := by
  unfold handleAddStudent
  simp only [h, gt_iff_lt, lt_self_iff_false, if_false]
  simp [defaultDraft]

theorem handleAddStudent_valid_witness :
    (handleAddStudent
      { initialState with
        students := mockStudentData
        showAddModal := true
        newStudent := { name := "Ann Lee", email := "ann@mail.org", course := "Civil", grade := "B" } }
      ).students.length = 6 + 1 :=
  (handleAddStudent_valid
    { initialState with
      students := mockStudentData
      showAddModal := true
      newStudent := { name := "Ann Lee", email := "ann@mail.org", course := "Civil", grade := "B" } }
    (by decide)).2.1

/-- C5: for every state whose draft fails validation, `handleAddStudent` changes
nothing but the field errors: directory, add-modal flag and draft are as before,
and the field errors are those of every failing field together (`name` iff the
trimmed name is empty, `email` iff the e-mail is empty or ill-shaped, `grade` iff
the trimmed grade is empty). -/
theorem handleAddStudent_invalid (s : AppState) (h : (validate s.newStudent).keys.length > 0) :
    handleAddStudent s = { s with formErrors := validate s.newStudent } ∧
    (handleAddStudent s).students = s.students ∧
    (handleAddStudent s).showAddModal = s.showAddModal ∧
    (handleAddStudent s).newStudent = s.newStudent ∧
    ((handleAddStudent s).formErrors.name.isSome = true ↔ trim s.newStudent.name = "") ∧
    ((handleAddStudent s).formErrors.email.isSome = true ↔
      (trim s.newStudent.email = "" ∨ emailRegexTest s.newStudent.email = false)) ∧
    ((handleAddStudent s).formErrors.grade.isSome = true ↔ trim s.newStudent.grade = "") := by
  have e : handleAddStudent s = { s with formErrors := validate s.newStudent } := by
    unfold handleAddStudent
    simp only [h, if_true]
  rw [e]
  refine ⟨rfl, rfl, rfl, rfl, ?_, ?_, ?_⟩
  · show (validate s.newStudent).name.isSome = true ↔ _
    rw [validate_eq]
    by_cases h : trim s.newStudent.name = "" <;> simp [h]
  · show (validate s.newStudent).email.isSome = true ↔ _
    rw [validate_eq]
    by_cases h1 : trim s.newStudent.email = "" <;>
      by_cases h2 : emailRegexTest s.newStudent.email = true <;> simp [h1, h2]
  · show (validate s.newStudent).grade.isSome = true ↔ _
    rw [validate_eq]
    by_cases h : trim s.newStudent.grade = "" <;> simp [h]

theorem handleAddStudent_invalid_witness :
    (handleAddStudent
      { initialState with
        students := mockStudentData
        showAddModal := true
        newStudent := { name := " ", email := "bad", course := "Civil", grade := "" } }
      ).formErrors =
      { name := some "Name is required", email := some "Invalid email format",
        grade := some "Grade is required" } := by
  rw [(handleAddStudent_invalid
    { initialState with
      students := mockStudentData
      showAddModal := true
      newStudent := { name := " ", email := "bad", course := "Civil", grade := "" } }
    (by decide)).1]
  decide

/-! ## Record ids -/

theorem handleLogin_students (s : AppState) : (handleLogin s).students = s.students := by
  unfold handleLogin
  split
  · simp only
    split <;> split <;> rfl
  · rfl

theorem idsInOrder_step (s : AppState) (a : Action) (h : IdsInOrder s) :
    IdsInOrder (step s a) := by
  cases a with
  | loadStudents =>
    unfold IdsInOrder
    simp only [step, loadStudents]
    decide
  | handleAddStudent =>
    unfold IdsInOrder at h ⊢
    simp only [step, handleAddStudent]
    split
    · exact h
    · simp only [List.map_append, List.length_append, List.length_singleton, List.map_cons,
        List.map_nil, h, List.range'_concat]
      simp [Nat.add_comm]
  | handleLogin =>
    unfold IdsInOrder at h ⊢
    simp only [step, handleLogin_students]
    exact h
  | initiateAddStudent =>
    unfold IdsInOrder at h ⊢
    simp only [step, initiateAddStudent]
    split <;> exact h
  | openStudentDetails r =>
    unfold IdsInOrder at h ⊢
    simp only [step, openStudentDetails]
    split <;> exact h
  | _ => exact h

theorem idsInOrder_run (actions : List Action) (s : AppState) (h : IdsInOrder s) :
    IdsInOrder (run s actions) := by
  induction actions generalizing s with
  | nil => exact h
  | cons a as ih => exact ih (step s a) (idsInOrder_step s a h)

/-- C4: in every state reached from the initial state by any sequence of events
(the start-up load and add submissions among them, in any order) the record ids
are pairwise distinct, and the id `length + 1` that a successful add assigns is
the id of no record of the directory. -/
theorem ids_distinct (actions : List Action) :
    ((run initialState actions).students.map (·.id)).Nodup ∧
    ∀ r ∈ (run initialState actions).students,
      r.id ≠ (run initialState actions).students.length + 1 := by
  have h : IdsInOrder (run initialState actions) := idsInOrder_run actions initialState rfl
  unfold IdsInOrder at h
  constructor
  · rw [h]
    exact List.nodup_range' 1 _
  · intro r hr
    have hm : r.id ∈ (run initialState actions).students.map (·.id) :=
      List.mem_map.mpr ⟨r, hr, rfl⟩
    rw [h, List.mem_range'_1] at hm
    omega

/-! ## Login -/

theorem jsSplit_head (sep : Char) (l : List Char) :
    (jsSplit sep l).headD [] = l.takeWhile (· != sep) := by
  induction l with
  | nil => rfl
  | cons c cs ih =>
    by_cases hc : c = sep
    · subst hc
      simp [jsSplit, List.takeWhile_cons]
    · have hne : (c != sep) = true := by simpa using hc
      have hbeq : (c == sep) = false := by simpa using hc
      simp only [jsSplit, hbeq, List.takeWhile_cons, hne, if_true]
      rw [← ih]
      cases jsSplit sep cs <;> rfl

theorem login_ok (cu : Option User) (e p : String) (he : e ≠ "") (hp : p ≠ "") :
    FirebaseAuthMock.login cu e p =
      (.ok { email := e, uid := "123456", displayName := ⟨e.data.takeWhile (· != '@')⟩ },
       some { email := e, uid := "123456", displayName := ⟨e.data.takeWhile (· != '@')⟩ }) := by
  unfold FirebaseAuthMock.login
  rw [if_pos (by simp [(truthy_iff e).mpr he, (truthy_iff p).mpr hp])]
  simp only [jsSplit_head]

theorem login_error (cu : Option User) (e p : String) (h : e = "" ∨ p = "") :
    FirebaseAuthMock.login cu e p = (.error "Invalid credentials", cu) := by
  unfold FirebaseAuthMock.login
  rw [if_neg]
  rcases h with h | h
  · simp [(truthy_eq_false_iff e).mpr h]
  · simp [(truthy_eq_false_iff p).mpr h]

/-- C6: `login` is rejected with `Invalid credentials` iff the e-mail or the
password is the empty string. When it is rejected, `handleLogin` leaves
`isAuthenticated`, `currentUser` and the three modal flags as they were; when it
is not, `isAuthenticated` becomes true and `currentUser` holds the given e-mail
and, as display name, the part of the e-mail before its first `@`. -/
theorem handleLogin_spec (s : AppState) :
    ((FirebaseAuthMock.login s.currentUser s.loginEmail s.loginPassword).1
        = .error "Invalid credentials" ↔ (s.loginEmail = "" ∨ s.loginPassword = "")) ∧
    ((s.loginEmail = "" ∨ s.loginPassword = "") →
      (handleLogin s).isAuthenticated = s.isAuthenticated ∧
      (handleLogin s).currentUser = s.currentUser ∧
      (handleLogin s).showLoginModal = s.showLoginModal ∧
      (handleLogin s).showAddModal = s.showAddModal ∧
      (handleLogin s).showDetailsModal = s.showDetailsModal) ∧
    (¬ (s.loginEmail = "" ∨ s.loginPassword = "") →
      (handleLogin s).isAuthenticated = true ∧
      (handleLogin s).currentUser =
        some { email := s.loginEmail, uid := "123456",
               displayName := ⟨s.loginEmail.data.takeWhile (· != '@')⟩ }) := by
  refine ⟨?_, ?_, ?_⟩
  · by_cases h : s.loginEmail = "" ∨ s.loginPassword = ""
    · simp [login_error _ _ _ h, h]
    · have h2 := not_or.mp h
      rw [login_ok _ _ _ h2.1 h2.2]
      simp [h]
  · intro h
    unfold handleLogin
    rw [login_error _ _ _ h]
    exact ⟨rfl, rfl, rfl, rfl, rfl⟩
  · intro h
    have h2 := not_or.mp h
    unfold handleLogin
    rw [login_ok _ _ _ h2.1 h2.2]
    simp only
    split <;> split <;> exact ⟨rfl, rfl⟩

theorem handleLogin_spec_witness :
    (handleLogin { initialState with loginEmail := "ann@mail.org", loginPassword := "" }
      ).isAuthenticated = false ∧
    (handleLogin { initialState with loginEmail := "ann@mail.org", loginPassword := "pw" }
      ).currentUser = some { email := "ann@mail.org", uid := "123456", displayName := "ann" } :=
  ⟨((handleLogin_spec
      { initialState with loginEmail := "ann@mail.org", loginPassword := "" }).2.1
      (by decide)).1,
   ((handleLogin_spec
      { initialState with loginEmail := "ann@mail.org", loginPassword := "pw" }).2.2
      (by decide)).2⟩

/-! ## Deferred details view -/

/-- C7 (as stated) fails when the add modal is open: after the load, an
anonymous user opens the add form and cancels the login prompt (anonymous,
details modal closed), asks for the details of the first record and logs in;
the details modal stays closed. -/
theorem details_after_login_counterexample :
    (run initialState [.loadStudents, .initiateAddStudent, .cancelLogin]).isAuthenticated = false ∧
    (run initialState [.loadStudents, .initiateAddStudent, .cancelLogin]).showDetailsModal = false ∧
    (run (run initialState [.loadStudents, .initiateAddStudent, .cancelLogin])
      [.openStudentDetails
          { id := 1, name := "Atanu Ghosh", email := "atanughosh@gmail.com",
            course := "Computer Science", grade := "A+" },
        .setLoginEmail "ann@mail.org", .setLoginPassword "pw", .handleLogin]).isAuthenticated
      = true ∧
    (run (run initialState [.loadStudents, .initiateAddStudent, .cancelLogin])
      [.openStudentDetails
          { id := 1, name := "Atanu Ghosh", email := "atanughosh@gmail.com",
            course := "Computer Science", grade := "A+" },
        .setLoginEmail "ann@mail.org", .setLoginPassword "pw", .handleLogin]).showDetailsModal
      = false := by
  decide

/-- C7 (amended): for every state in which the user is anonymous and the details
modal and the add modal are closed, and every record `R`, `openStudentDetails R`
opens the login modal and leaves the details modal closed; after typing a
non-empty e-mail and password, `handleLogin` leaves the user authenticated, the
details modal open with `R` selected and the login modal closed. -/
theorem details_after_login (s : AppState) (R : Student) (e p : String)
    (hAnon : s.isAuthenticated = false) (hDetails : s.showDetailsModal = false)
    (hAdd : s.showAddModal = false) (he : e ≠ "") (hp : p ≠ "") :
    (openStudentDetails R s).showLoginModal = true ∧
    (openStudentDetails R s).showDetailsModal = false ∧
    (run s [.openStudentDetails R, .setLoginEmail e, .setLoginPassword p, .handleLogin]
      ).isAuthenticated = true ∧
    (run s [.openStudentDetails R, .setLoginEmail e, .setLoginPassword p, .handleLogin]
      ).showDetailsModal = true ∧
    (run s [.openStudentDetails R, .setLoginEmail e, .setLoginPassword p, .handleLogin]
      ).selectedStudent = some R ∧
    (run s [.openStudentDetails R, .setLoginEmail e, .setLoginPassword p, .handleLogin]
      ).showLoginModal = false := by
  have hopen : openStudentDetails R s = { s with selectedStudent := some R, showLoginModal := true } := by
    unfold openStudentDetails
    simp [hAnon]
  refine ⟨by rw [hopen], by rw [hopen]; exact hDetails, ?_⟩
  simp only [run, List.foldl, step, hopen, handleLogin, login_ok _ e p he hp, hAdd]
  simp

theorem details_after_login_witness :
    (run { initialState with students := mockStudentData, loading := false }
      [.openStudentDetails
          { id := 3, name := "Abhirup Bhoumik", email := "abhirup@gmail.com", course := "Civil",
            grade := "A" },
        .setLoginEmail "ann@mail.org", .setLoginPassword "pw", .handleLogin]).selectedStudent
      = some { id := 3, name := "Abhirup Bhoumik", email := "abhirup@gmail.com", course := "Civil",
               grade := "A" } :=
  (details_after_login { initialState with students := mockStudentData, loading := false }
    { id := 3, name := "Abhirup Bhoumik", email := "abhirup@gmail.com", course := "Civil",
      grade := "A" }
    "ann@mail.org" "pw" rfl rfl rfl (by decide) (by decide)).2.2.2.2.1

/-- C8 on the code: an anonymous user asks for the details of the first record,
cancels the login prompt, later opens it from the header and logs in; the
details modal opens on that record, because `Cancel` leaves `selectedStudent`
set. -/
theorem stale_intent_after_cancel :
    (run initialState
      [.loadStudents,
        .openStudentDetails
          { id := 1, name := "Atanu Ghosh", email := "atanughosh@gmail.com",
            course := "Computer Science", grade := "A+" },
        .cancelLogin, .headerLogin, .setLoginEmail "ann@mail.org", .setLoginPassword "pw",
        .handleLogin]).showDetailsModal = true ∧
    (run initialState
      [.loadStudents,
        .openStudentDetails
          { id := 1, name := "Atanu Ghosh", email := "atanughosh@gmail.com",
            course := "Computer Science", grade := "A+" },
        .cancelLogin, .headerLogin, .setLoginEmail "ann@mail.org", .setLoginPassword "pw",
        .handleLogin]).selectedStudent =
      some { id := 1, name := "Atanu Ghosh", email := "atanughosh@gmail.com",
             course := "Computer Science", grade := "A+" } := by
  decide

/-! ## Details gate -/

theorem handleLogin_gated (s : AppState) (h : DetailsGated s) : DetailsGated (handleLogin s) := by
  unfold DetailsGated at h ⊢
  by_cases hc : s.loginEmail = "" ∨ s.loginPassword = ""
  · unfold handleLogin
    rw [login_error _ _ _ hc]
    exact h
  · have h2 := not_or.mp hc
    intro _
    unfold handleLogin
    rw [login_ok _ _ _ h2.1 h2.2]
    simp only
    split <;> split <;> rfl

theorem handleAddStudent_gated (s : AppState) (h : DetailsGated s) :
    DetailsGated (handleAddStudent s) := by
  unfold DetailsGated at h ⊢
  unfold handleAddStudent
  simp only
  split <;> exact h

theorem detailsGated_step (s : AppState) (a : Action) (ha : a ≠ .handleLogout)
    (h : DetailsGated s) : DetailsGated (step s a) := by
  cases a with
  | handleLogout => exact absurd rfl ha
  | handleLogin => exact handleLogin_gated s h
  | handleAddStudent => exact handleAddStudent_gated s h
  | openStudentDetails r =>
    unfold DetailsGated at h ⊢
    simp only [step, openStudentDetails]
    split
    · intro _
      assumption
    · exact h
  | initiateAddStudent =>
    unfold DetailsGated at h ⊢
    simp only [step, initiateAddStudent]
    split <;> exact h
  | closeDetails =>
    intro hd
    exact absurd hd (by simp [step])
  | _ => exact h

/-- Every handler but `handleLogout` keeps the details gate: without a logout
the details modal is never open for an anonymous user. -/
theorem detailsGated_run_without_logout (actions : List Action) (s : AppState)
    (hl : ∀ a ∈ actions, a ≠ .handleLogout) (h : DetailsGated s) :
    DetailsGated (run s actions) := by
  induction actions generalizing s with
  | nil => exact h
  | cons a as ih =>
    exact ih (step s a) (fun b hb => hl b (List.mem_cons_of_mem _ hb))
      (detailsGated_step s a (hl a (List.mem_cons_self _ _)) h)

/-- C11 on the code: after the load a user logs in from the header, opens the
details of the first record and logs out, each event fired by a rendered
control; the details modal is then rendered on that record although the user is
anonymous, because `handleLogout` leaves `showDetailsModal` set. This holds for
every host case conversion: the query is empty when the record is picked. -/
theorem details_visible_after_logout (host : HostCase) :
    (runEnabled host initialState
      [.loadStudents, .headerLogin, .setLoginEmail "ann@mail.org", .setLoginPassword "pw",
        .handleLogin,
        .openStudentDetails
          { id := 1, name := "Atanu Ghosh", email := "atanughosh@gmail.com",
            course := "Computer Science", grade := "A+" },
        .handleLogout]).map
      (fun s => (detailsVisible s, s.showDetailsModal, s.selectedStudent, s.isAuthenticated)) =
    some (true, true,
      some { id := 1, name := "Atanu Ghosh", email := "atanughosh@gmail.com",
             course := "Computer Science", grade := "A+" },
      false) := by
  have hlisted :
      decide (({ id := 1, name := "Atanu Ghosh", email := "atanughosh@gmail.com",
                 course := "Computer Science", grade := "A+" } : Student) ∈
        filteredStudents host mockStudentData "All Courses" "") = true := by
    rw [decide_eq_true_iff, filteredStudents, List.mem_filter]
    exact ⟨by decide, matchesFilter_all_empty host _⟩
  have hrun :
      runEnabled host initialState
        [.loadStudents, .headerLogin, .setLoginEmail "ann@mail.org", .setLoginPassword "pw",
          .handleLogin,
          .openStudentDetails
            { id := 1, name := "Atanu Ghosh", email := "atanughosh@gmail.com",
              course := "Computer Science", grade := "A+" },
          .handleLogout] =
      if (!false &&
          decide (({ id := 1, name := "Atanu Ghosh", email := "atanughosh@gmail.com",
                     course := "Computer Science", grade := "A+" } : Student) ∈
            filteredStudents host mockStudentData "All Courses" "")) = true then
        some (run initialState
          [.loadStudents, .headerLogin, .setLoginEmail "ann@mail.org", .setLoginPassword "pw",
            .handleLogin,
            .openStudentDetails
              { id := 1, name := "Atanu Ghosh", email := "atanughosh@gmail.com",
                course := "Computer Science", grade := "A+" },
            .handleLogout])
      else none := rfl
  rw [hrun, hlisted]
  rfl

end StudentDashboard
